import Mathlib

/-!
Shallow embedding of the request pipeline of `cached-eth-rpc`
(`src/main.rs`), together with proofs about its batch dispatch,
classification, upstream correlation and cache write-back logic.

The repository's `json_rpc`, `cache`, `args` and `rpc_cache_handler`
modules are not part of the provided sources; where their behaviour is
needed it is modelled from the specification (each such definition is
marked `Modelled from the spec:`).  Everything else is translated
directly from `src/main.rs`.
-/

namespace CachedEthRpc

/-- JSON values (serde_json `Value`).  Numbers are modelled as integers:
the pipeline only inspects numbers when parsing request ids, and only
integral numbers are valid ids; a fractional number behaves exactly like
`bool` here (rejected by `RequestId.tryFrom`, and a non-object value for
the purposes of field access). -/
inductive JsonValue : Type where
  | null : JsonValue
  | bool (b : Bool) : JsonValue
  | num (n : Int) : JsonValue
  | str (s : String) : JsonValue
  | arr (elems : List JsonValue) : JsonValue
  | obj (fields : List (String × JsonValue)) : JsonValue

/-- Modelled from the spec: the `json_rpc` module is not under `src/`.
§3: a JSON-RPC id is one of absent (null), integer, string; integer and
string ids are distinct even when textually equal. -/
inductive RequestId : Type where
  | null : RequestId
  | num (n : Int) : RequestId
  | str (s : String) : RequestId
deriving DecidableEq

/-- Modelled from the spec (§4.A): `RequestId` construction from arbitrary
JSON fails unless the JSON is null, a string, or an integral number. -/
def RequestId.tryFrom : JsonValue → Option RequestId
  | .null => some .null
  | .num n => some (.num n)
  | .str s => some (.str s)
  | _ => none

/-- Modelled from the spec (§3, §7): the standard error kinds carried by
`DefinedError` of the missing `json_rpc` module (−32600, −32601, −32603). -/
inductive DefinedError : Type where
  | invalidRequest : DefinedError
  | methodNotFound : DefinedError
  | internalError (data : Option JsonValue) : DefinedError

/-- Modelled from the spec (§3): a response body is exactly one of a
result, a standard error, or a custom upstream error forwarded verbatim. -/
inductive ResponseBody : Type where
  | result (v : JsonValue) : ResponseBody
  | definedError (e : DefinedError) : ResponseBody
  | customError (e : JsonValue) : ResponseBody

/-- Modelled from the spec (§3): a JSON-RPC response.  `id = none`
serializes as a null id ("id reported as null"). -/
structure JsonRpcResponse : Type where
  id : Option RequestId
  body : ResponseBody

/-- `JsonRpcResponse::from_error` of the missing `json_rpc` module. -/
def JsonRpcResponse.from_error (id : Option RequestId) (e : DefinedError) :
    JsonRpcResponse :=
  ⟨id, .definedError e⟩

/-- `JsonRpcResponse::from_result` of the missing `json_rpc` module. -/
def JsonRpcResponse.from_result (id : RequestId) (v : JsonValue) :
    JsonRpcResponse :=
  ⟨some id, .result v⟩

/-- `JsonRpcResponse::from_custom_error` of the missing `json_rpc`
module: forwards an upstream `error` object verbatim. -/
def JsonRpcResponse.from_custom_error (id : Option RequestId)
    (e : JsonValue) : JsonRpcResponse :=
  ⟨id, .customError e⟩

/-- serde_json's immutable `Index<&str>` (`v["k"]` read-only): returns the
field of an object, and `Null` whenever the value is not an object or the
key is absent. -/
def JsonValue.index (v : JsonValue) (k : String) : JsonValue :=
  match v with
  | .obj fields =>
    match fields.lookup k with
    | some x => x
    | none => .null
  | _ => .null

/-- serde_json's `IndexMut<&str>` composed with `Value::take`
(`v["k"].take()`), as used throughout `main.rs`: on `Null` the value is
first replaced by an empty object; on an object the entry is or-inserted
with `Null` and then taken (replaced by `Null`); on any other value the
access panics (modelled as `none`).  Returns the taken value and the
updated container. -/
def JsonValue.takeKey (v : JsonValue) (k : String) :
    Option (JsonValue × JsonValue) :=
  match v with
  | .null => some (.null, .obj [(k, .null)])
  | .obj fields =>
    match fields.lookup k with
    | some x =>
      some (x, .obj (fields.map (fun p => if p.1 = k then (k, .null) else p)))
    | none => some (.null, .obj (fields ++ [(k, .null)]))
  | _ => none

/-- `extract_single_request_info` (`main.rs` lines 281–295).  The outer
`Option` models the serde_json panic on `raw_request["id"].take()` when
the entry is neither an object nor null. -/
def extract_single_request_info (raw_request : JsonValue) :
    Option (Except (Option RequestId × DefinedError)
      (RequestId × String × JsonValue)) :=
  match raw_request.takeKey "id" with
  | none => none
  | some (idValue, raw1) =>
    match RequestId.tryFrom idValue with
    | none => some (.error (none, .invalidRequest))
    | some id =>
      match raw1.takeKey "method" with
      | none => none
      | some (methodValue, raw2) =>
        match methodValue with
        | .str s =>
          match raw2.takeKey "params" with
          | none => none
          | some (params, _) => some (.ok (id, s, params))
        | _ => some (.error (some id, .methodNotFound))

/-- The per-method cache policy (`RpcCacheHandler` of the missing
`rpc_cache_handler` module): kept abstract as a pair of functions, exactly
the two operations `main.rs` invokes on it. -/
structure Handler : Type where
  extract_cache_key : JsonValue → Except String (Option String)
  extract_cache_value : JsonValue → Except String (Bool × JsonValue)

/-- `CacheStatus` of the missing `cache` module (§4.D of the spec). -/
inductive CacheStatus : Type where
  | cached (key : String) (value : JsonValue) : CacheStatus
  | missed (key : String) : CacheStatus

/-- A cache backend handle: only `read` is consulted by the control flow
of `main.rs`; writes are recorded as a trace by the correlation phase. -/
structure CacheBackend : Type where
  read : String → String → Except String CacheStatus

/-- `RpcRequest` (`main.rs` lines 408–437). -/
structure RpcRequest : Type where
  index : Nat
  id : RequestId
  method : String
  params : JsonValue
  cache_key : Option String

/-- `ChainState` (`main.rs` lines 393–397).  `cache_factory n` is the
outcome of the n-th `get_instance()` call (the classification phase calls
it with 0, the write-back phase with 1); `upstream` is the outcome of
`utils::do_rpc_request` for a given pending batch (the `rpc_url` and the
HTTP client are absorbed into this function). -/
structure ChainState : Type where
  cache_entries : String → Option Handler
  cache_factory : Nat → Except String CacheBackend
  upstream : List RpcRequest → Except String JsonValue

/-- The mutable state of the classification loop (`main.rs` lines 42–44):
`ordered` is `ordered_requests_result`, `uncached` is `uncached_requests`,
`idMap` is `request_id_index_map` (a `HashMap`, whose `insert` overwrites,
modelled as a function update). -/
structure ClassifyState : Type where
  ordered : List (Option JsonRpcResponse)
  uncached : List RpcRequest
  idMap : RequestId → Option Nat

/-- The body of `push_uncached_request_and_continue!` (`main.rs` lines
73–87): record the id-to-position entry, then append the request. -/
def ClassifyState.pushUncached (st : ClassifyState) (index : Nat)
    (id : RequestId) (method : String) (params : JsonValue)
    (key : Option String) : ClassifyState :=
  { st with
    uncached := st.uncached ++ [⟨index, id, method, params, key⟩],
    idMap := fun k => if k = id then some st.uncached.length else st.idMap k }

/-- One iteration of the classification loop (`main.rs` lines 63–124).
Note the malformed branch appends (`Vec::push`) the error response to the
end of `ordered` instead of storing it at `index` — this mirrors line 67.
`none` models a panic inside the iteration. -/
def classifyOne (cache_entries : String → Option Handler)
    (cache_backend : CacheBackend)
    (st : ClassifyState) (index : Nat) (request : JsonValue) :
    Option ClassifyState :=
  match extract_single_request_info request with
  | none => none
  | some (.error (request_id, err)) =>
    some { st with
      ordered := st.ordered ++ [some (JsonRpcResponse.from_error request_id err)] }
  | some (.ok (id, method, params)) =>
    match cache_entries method with
    | none => some (st.pushUncached index id method params none)
    | some cache_entry =>
      match cache_entry.extract_cache_key params with
      | .ok none => some (st.pushUncached index id method params none)
      | .error _ => some (st.pushUncached index id method params none)
      | .ok (some params_key) =>
        match cache_backend.read method params_key with
        | .ok (.cached _ value) =>
          some { st with
            ordered := st.ordered.set index (some (JsonRpcResponse.from_result id value)) }
        | .ok (.missed key) =>
          some (st.pushUncached index id method params (some key))
        | .error _ => some (st.pushUncached index id method params none)

/-- The classification loop over the remaining requests, starting at
enumeration position `index` (`main.rs` lines 63–124). -/
def classifyAll (cache_entries : String → Option Handler)
    (cache_backend : CacheBackend) :
    ClassifyState → Nat → List JsonValue → Option ClassifyState
  | st, _, [] => some st
  | st, index, request :: rest =>
    match classifyOne cache_entries cache_backend st index request with
    | none => none
    | some st' => classifyAll cache_entries cache_backend st' (index + 1) rest

/-- The HTTP outcome of the handler: 404 for an unknown chain, otherwise
HTTP 200 carrying either a single response object or a JSON array (a
`None` entry serializes as JSON null). -/
inductive HttpOutcome : Type where
  | notFound (body : String) : HttpOutcome
  | okSingle (response : JsonRpcResponse) : HttpOutcome
  | okBatch (responses : List (Option JsonRpcResponse)) : HttpOutcome

/-- `return_response!` (`main.rs` lines 127–134): in single mode the
source evaluates `ordered_requests_result[0].clone().unwrap()`, which
panics (modelled as `none`) when the slot is `None` or the vector is
empty. -/
def return_response (is_single_request : Bool)
    (ordered : List (Option JsonRpcResponse)) : Option HttpOutcome :=
  match is_single_request with
  | true =>
    match ordered.head? with
    | some (some r) => some (.okSingle r)
    | _ => none
  | false => some (.okBatch ordered)

/-- The `json!({"error": e, "reason": r})` payloads of `main.rs`. -/
def errObj (e reason : String) : JsonValue :=
  .obj [("error", .str e), ("reason", .str reason)]

/-- The `json!` payload at `main.rs` lines 176–180 for a non-array
upstream body.  The source stores `rpc_result.to_string()` in the
`response` field; the serialization is modelled by the raw value. -/
def upstreamShapeErr (rpc_result : JsonValue) : JsonValue :=
  .obj [("error", .str "invalid rpc response from backend"),
        ("reason", .str "array is expected"),
        ("response", rpc_result)]

/-- The three error fill loops of `main.rs` (lines 151–159, 173–182,
201–209): store `mk rq` at `rq.index` for every pending request. -/
def fillAll (ordered : List (Option JsonRpcResponse))
    (uncached : List RpcRequest) (mk : RpcRequest → JsonRpcResponse) :
    List (Option JsonRpcResponse) :=
  uncached.foldl (fun acc rq => acc.set rq.index (some (mk rq))) ordered

/-- The binding of one upstream response element to a pending request
(`main.rs` lines 216–231): by id when the id parses and is in the map,
else positionally by the element's index, else the element is dropped.
`panic` covers the unchecked `uncached_requests[...]` indexing. -/
inductive CorrelateBinding : Type where
  | panic : CorrelateBinding
  | dropped : CorrelateBinding
  | bound (rq : RpcRequest) : CorrelateBinding

/-- Positional fallback (`main.rs` lines 220–229). -/
def bindFallback (uncached : List RpcRequest) (index : Nat) :
    CorrelateBinding :=
  match uncached[index]? with
  | some rq => .bound rq
  | none => .dropped

/-- `main.rs` lines 216–231: resolve which pending request an upstream
response element correlates with. -/
def bindResponse (uncached : List RpcRequest)
    (idMap : RequestId → Option Nat) (index : Nat) (response : JsonValue) :
    CorrelateBinding :=
  match RequestId.tryFrom (response.index "id") with
  | some id =>
    match idMap id with
    | some j =>
      match uncached[j]? with
      | some rq => .bound rq
      | none => .panic
    | none => bindFallback uncached index
  | none => bindFallback uncached index

/-- `main.rs` lines 247–275: the cache write-back for one correlated
result.  The `.unwrap()` on the registry lookup (line 254) is modelled as
a panic (`none`); on extract-value failure the already-resolved slot is
overwritten with an InternalError; on a cacheable value the write is
recorded in the `writes` trace (the source calls
`cache_backend.write(&cache_key, &extracted_value.to_string())`,
best-effort, discarding the outcome). -/
def writeBackPhase (cache_entries : String → Option Handler)
    (rq : RpcRequest) (result : JsonValue)
    (ordered : List (Option JsonRpcResponse))
    (writes : List (String × JsonValue)) :
    Option (List (Option JsonRpcResponse) × List (String × JsonValue)) :=
  match rq.cache_key with
  | none => some (ordered, writes)
  | some cache_key =>
    match cache_entries rq.method with
    | none => none
    | some cache_entry =>
      match cache_entry.extract_cache_value result with
      | .error err =>
        some (ordered.set rq.index (some (JsonRpcResponse.from_error
          (some rq.id)
          (.internalError (some (errObj "fail to extract cache value" err))))),
          writes)
      | .ok (can_cache, extracted_value) =>
        if can_cache then some (ordered, writes ++ [(cache_key, extracted_value)])
        else some (ordered, writes)

/-- The processing of one bound upstream response element (`main.rs`
lines 233–275): route on the `error` field, resolve the slot, then run
the write-back.  `none` models a panic: serde_json's
`response["error"].take()` / `response["result"].take()` on an element
that is neither an object nor null, or the registry `.unwrap()`. -/
def elemStep (cache_entries : String → Option Handler) (rq : RpcRequest)
    (st : List (Option JsonRpcResponse) × List (String × JsonValue))
    (response : JsonValue) :
    Option (List (Option JsonRpcResponse) × List (String × JsonValue)) :=
  match response.takeKey "error" with
  | none => none
  | some (errValue, response1) =>
    match errValue with
    | .null =>
      match response1.takeKey "result" with
      | none => none
      | some (result, _) =>
        writeBackPhase cache_entries rq result
          (st.1.set rq.index (some (JsonRpcResponse.from_result rq.id result)))
          st.2
    | errValue =>
      some (st.1.set rq.index (some (JsonRpcResponse.from_custom_error
        (some rq.id) errValue)), st.2)

/-- One iteration of the correlation loop (`main.rs` lines 215–276) on
the state (`ordered_requests_result`, write trace): bind the element to a
pending request, then process it (`elemStep`). -/
def correlateOne (cache_entries : String → Option Handler)
    (uncached : List RpcRequest)
    (idMap : RequestId → Option Nat)
    (st : List (Option JsonRpcResponse) × List (String × JsonValue))
    (index : Nat) (response : JsonValue) :
    Option (List (Option JsonRpcResponse) × List (String × JsonValue)) :=
  match bindResponse uncached idMap index response with
  | .panic => none
  | .dropped => some st
  | .bound rq => elemStep cache_entries rq st response

/-- The correlation loop over the upstream response elements, starting at
enumeration position `index` (`main.rs` lines 215–276). -/
def correlateAll (cache_entries : String → Option Handler)
    (uncached : List RpcRequest)
    (idMap : RequestId → Option Nat) :
    (List (Option JsonRpcResponse) × List (String × JsonValue)) → Nat →
    List JsonValue →
    Option (List (Option JsonRpcResponse) × List (String × JsonValue))
  | st, _, [] => some st
  | st, index, response :: rest =>
    match correlateOne cache_entries uncached idMap st index response with
    | none => none
    | some st' => correlateAll cache_entries uncached idMap st' (index + 1) rest

/-- The body of `rpc_call` after routing and body-shape dispatch
(`main.rs` lines 42–279). -/
def rpc_core (cs : ChainState) (requests : List JsonValue)
    (is_single_request : Bool) : Option HttpOutcome :=
  match cs.cache_factory 0 with
  | .error err =>
    some (.okSingle (JsonRpcResponse.from_error none
      (.internalError (some (errObj "fail to get cache backend" err)))))
  | .ok cache_backend =>
    match classifyAll cs.cache_entries cache_backend
        ⟨List.replicate requests.length none, [], fun _ => none⟩ 0 requests with
    | none => none
    | some st =>
      if st.uncached.isEmpty then return_response is_single_request st.ordered
      else
        match cs.upstream st.uncached with
        | .error err =>
          return_response is_single_request (fillAll st.ordered st.uncached
            (fun rq => JsonRpcResponse.from_error (some rq.id)
              (.internalError (some (errObj "fail to make rpc request to backend" err)))))
        | .ok rpc_result =>
          match rpc_result with
          | .arr result_values =>
            match cs.cache_factory 1 with
            | .error err =>
              return_response is_single_request (fillAll st.ordered st.uncached
                (fun rq => JsonRpcResponse.from_error (some rq.id)
                  (.internalError (some (errObj "fail to get cache backend" err)))))
            | .ok _ =>
              match correlateAll cs.cache_entries st.uncached st.idMap
                  (st.ordered, []) 0 result_values with
              | none => none
              | some (ordered, _) => return_response is_single_request ordered
          | other =>
            return_response is_single_request (fillAll st.ordered st.uncached
              (fun rq => JsonRpcResponse.from_error (some rq.id)
                (.internalError (some (upstreamShapeErr other)))))

/-- Rust's `str::to_uppercase`, as applied to chain path segments
(ASCII case mapping, adequate for chain labels). -/
def toUppercase (s : String) : String :=
  ⟨s.data.map Char.toUpper⟩

/-- `main.rs` lines 30–34: `data.chains.get(&chain.to_uppercase())`.
The `HashMap` is modelled as an association list. -/
def routeChain (chains : List (String × ChainState)) (chain : String) :
    Option ChainState :=
  List.lookup (toUppercase chain) chains

/-- `rpc_call` (`main.rs` lines 24–279): route by chain segment, dispatch
on the body shape (lines 36–40), then run the pipeline.  `none` models a
handler panic. -/
def rpc_call (chains : List (String × ChainState)) (chain : String)
    (body : JsonValue) : Option HttpOutcome :=
  match routeChain chains chain with
  | none => some (.notFound "endpoint not supported")
  | some chain_state =>
    match body with
    | .arr requests => rpc_core chain_state requests false
    | .obj fields => rpc_core chain_state [.obj fields] true
    | _ => some (.okSingle (JsonRpcResponse.from_error none .invalidRequest))

/-- Modelled from the spec: the `args` module (not under `src/`) delivers
the configured `(name, upstreamURL)` pairs, and `main` (line 343) inserts
each chain state under the delivered name while `rpc_call` (line 33) looks
the path segment up by its uppercased form; §6 requires `{chain}` to match
configured names case-insensitively, so the delivered names are modelled
as registered under their canonical uppercase form. -/
def buildChains (endpoints : List (String × ChainState)) :
    List (String × ChainState) :=
  endpoints.map (fun p => (toUppercase p.1, p.2))

/-! ### Characterization of the correlation loop -/

/-- The pending request an upstream element binds to through the id map
alone (no positional fallback): the premise of pure id-based correlation
(`main.rs` lines 216–219). -/
def boundRequest (uncached : List RpcRequest)
    (idMap : RequestId → Option Nat) (e : JsonValue) : Option RpcRequest :=
  match RequestId.tryFrom (e.index "id") with
  | some id =>
    match idMap id with
    | some j => uncached[j]?
    | none => none
  | none => none

/-- The slot position an element binds to by id. -/
def elemBoundIndex (uncached : List RpcRequest)
    (idMap : RequestId → Option Nat) (e : JsonValue) : Option Nat :=
  (boundRequest uncached idMap e).map RpcRequest.index

/-- The net effect of processing one bound upstream element: the response
finally stored at the bound slot together with the cache writes appended,
or `none` for a panic. -/
def elemOutcome (cache_entries : String → Option Handler) (rq : RpcRequest)
    (e : JsonValue) : Option (JsonRpcResponse × List (String × JsonValue)) :=
  match e.takeKey "error" with
  | none => none
  | some (errValue, e1) =>
    match errValue with
    | .null =>
      match e1.takeKey "result" with
      | none => none
      | some (result, _) =>
        match rq.cache_key with
        | none => some (.from_result rq.id result, [])
        | some cache_key =>
          match cache_entries rq.method with
          | none => none
          | some cache_entry =>
            match cache_entry.extract_cache_value result with
            | .error err =>
              some (.from_error (some rq.id)
                (.internalError (some (errObj "fail to extract cache value" err))), [])
            | .ok (true, v) => some (.from_result rq.id result, [(cache_key, v)])
            | .ok (false, _) => some (.from_result rq.id result, [])
    | errValue => some (.from_custom_error (some rq.id) errValue, [])

lemma elemStep_eq (cache_entries : String → Option Handler)
    (rq : RpcRequest) (o : List (Option JsonRpcResponse))
    (w : List (String × JsonValue)) (e : JsonValue) :
    elemStep cache_entries rq (o, w) e =
      (elemOutcome cache_entries rq e).map
        (fun p => (o.set rq.index (some p.1), w ++ p.2)) := by
  rcases h1 : e.takeKey "error" with _ | ⟨errValue, e1⟩
  · simp [elemStep, elemOutcome, h1]
  · cases errValue
    case null =>
      rcases h2 : e1.takeKey "result" with _ | ⟨result, rest⟩
      · simp [elemStep, elemOutcome, h1, h2]
      · rcases h3 : rq.cache_key with _ | k
        · simp [elemStep, elemOutcome, writeBackPhase, h1, h2, h3]
        · rcases h4 : cache_entries rq.method with _ | entry
          · simp [elemStep, elemOutcome, writeBackPhase, h1, h2, h3, h4]
          · rcases h5 : entry.extract_cache_value result with err | ⟨can, v⟩
            · simp [elemStep, elemOutcome, writeBackPhase, h1, h2, h3, h4,
                h5, List.set_set]
            · cases can <;>
                simp [elemStep, elemOutcome, writeBackPhase, h1, h2, h3, h4, h5]
    all_goals simp [elemStep, elemOutcome, h1]

lemma bindResponse_of_boundRequest (uncached : List RpcRequest)
    (idMap : RequestId → Option Nat) (i : Nat) (e : JsonValue)
    (rq : RpcRequest) (h : boundRequest uncached idMap e = some rq) :
    bindResponse uncached idMap i e = .bound rq := by
  rcases h1 : RequestId.tryFrom (e.index "id") with _ | id
  · simp [boundRequest, h1] at h
  · rcases h2 : idMap id with _ | j
    · simp [boundRequest, h1, h2] at h
    · rcases h3 : uncached[j]? with _ | rq'
      · simp [boundRequest, h1, h2, h3] at h
      · simp [boundRequest, h1, h2, h3] at h
        subst h
        simp [bindResponse, h1, h2, h3]

lemma correlateOne_by_id (cache_entries : String → Option Handler)
    (uncached : List RpcRequest) (idMap : RequestId → Option Nat)
    (o : List (Option JsonRpcResponse)) (w : List (String × JsonValue))
    (i : Nat) (e : JsonValue) (rq : RpcRequest)
    (h : boundRequest uncached idMap e = some rq) :
    correlateOne cache_entries uncached idMap (o, w) i e =
      (elemOutcome cache_entries rq e).map
        (fun p => (o.set rq.index (some p.1), w ++ p.2)) := by
  unfold correlateOne
  rw [bindResponse_of_boundRequest uncached idMap i e rq h]
  exact elemStep_eq cache_entries rq o w e

/-- The ordered-slots effect of one element, given pure id binding. -/
def applyOrd (cache_entries : String → Option Handler)
    (uncached : List RpcRequest) (idMap : RequestId → Option Nat)
    (o : List (Option JsonRpcResponse)) (e : JsonValue) :
    List (Option JsonRpcResponse) :=
  match boundRequest uncached idMap e with
  | none => o
  | some rq =>
    match elemOutcome cache_entries rq e with
    | none => o
    | some p => o.set rq.index (some p.1)

/-- Whether processing an element panics, given pure id binding. -/
def elemFails (cache_entries : String → Option Handler)
    (uncached : List RpcRequest) (idMap : RequestId → Option Nat)
    (e : JsonValue) : Bool :=
  match boundRequest uncached idMap e with
  | none => true
  | some rq => (elemOutcome cache_entries rq e).isNone

lemma correlateAll_ordered (cache_entries : String → Option Handler)
    (uncached : List RpcRequest) (idMap : RequestId → Option Nat) :
    ∀ (l : List JsonValue) (o : List (Option JsonRpcResponse))
      (w : List (String × JsonValue)) (i : Nat),
      (∀ e ∈ l, (boundRequest uncached idMap e).isSome) →
      (correlateAll cache_entries uncached idMap (o, w) i l).map Prod.fst =
        if l.any (elemFails cache_entries uncached idMap) then none
        else some (l.foldl (applyOrd cache_entries uncached idMap) o)
  | [], o, w, i, _ => by simp [correlateAll]
  | e :: es, o, w, i, H => by
    obtain ⟨rq, hrq⟩ := Option.isSome_iff_exists.mp (H e (by simp))
    have hstep := correlateOne_by_id cache_entries uncached idMap o w i e rq hrq
    rcases hout : elemOutcome cache_entries rq e with _ | p
    · rw [hout] at hstep
      simp only [Option.map_none'] at hstep
      simp [correlateAll, hstep, List.any_cons, elemFails, hrq, hout]
    · rw [hout] at hstep
      simp only [Option.map_some'] at hstep
      have IH := correlateAll_ordered cache_entries uncached idMap es
        (o.set rq.index (some p.1)) (w ++ p.2) (i + 1)
        (fun x hx => H x (by simp [hx]))
      simp [correlateAll, hstep, List.any_cons, elemFails, hrq, hout, IH,
        applyOrd]

lemma any_perm {α : Type} {l₁ l₂ : List α} (p : α → Bool)
    (h : l₁.Perm l₂) : l₁.any p = l₂.any p := by
  cases h1 : l₁.any p
  · cases h2 : l₂.any p
    · rfl
    · simp only [List.any_eq_true] at h2
      obtain ⟨x, hx, hpx⟩ := h2
      have := List.any_eq_true.mpr ⟨x, (h.mem_iff).mpr hx, hpx⟩
      rw [h1] at this
      exact absurd this (by simp)
  · simp only [List.any_eq_true] at h1
    obtain ⟨x, hx, hpx⟩ := h1
    exact (List.any_eq_true.mpr ⟨x, (h.mem_iff).mp hx, hpx⟩).symm

lemma foldl_applyOrd_perm (cache_entries : String → Option Handler)
    (uncached : List RpcRequest) (idMap : RequestId → Option Nat)
    (l₁ l₂ : List JsonValue) (o : List (Option JsonRpcResponse))
    (hperm : l₁.Perm l₂)
    (hbound : ∀ e ∈ l₁, (boundRequest uncached idMap e).isSome)
    (hdistinct : l₁.Pairwise (fun a b =>
      elemBoundIndex uncached idMap a ≠ elemBoundIndex uncached idMap b)) :
    l₁.foldl (applyOrd cache_entries uncached idMap) o =
      l₂.foldl (applyOrd cache_entries uncached idMap) o := by
  refine hperm.foldl_eq' ?_ o
  intro x hx y hy z
  by_cases hxy : x = y
  · subst hxy; rfl
  · have hsymm : Symmetric (fun a b =>
        elemBoundIndex uncached idMap a ≠ elemBoundIndex uncached idMap b) :=
      fun a b h hh => h hh.symm
    have hne := List.Pairwise.forall hsymm hdistinct hx hy hxy
    obtain ⟨rqx, hrqx⟩ := Option.isSome_iff_exists.mp (hbound x hx)
    obtain ⟨rqy, hrqy⟩ := Option.isSome_iff_exists.mp (hbound y hy)
    have hidx : rqx.index ≠ rqy.index := by
      intro hcontra
      apply hne
      simp [elemBoundIndex, hrqx, hrqy, hcontra]
    rcases hox : elemOutcome cache_entries rqx x with _ | px <;>
      rcases hoy : elemOutcome cache_entries rqy y with _ | py <;>
        simp [applyOrd, hrqx, hrqy, hox, hoy]
    exact List.set_comm _ _ z hidx

/-- Permutation invariance of the assembled slots under pure, injective
id-based correlation. -/
lemma correlateAll_perm (cache_entries : String → Option Handler)
    (uncached : List RpcRequest) (idMap : RequestId → Option Nat)
    (l₁ l₂ : List JsonValue) (o : List (Option JsonRpcResponse))
    (w : List (String × JsonValue)) (i₁ i₂ : Nat)
    (hperm : l₁.Perm l₂)
    (hbound : ∀ e ∈ l₁, (boundRequest uncached idMap e).isSome)
    (hdistinct : l₁.Pairwise (fun a b =>
      elemBoundIndex uncached idMap a ≠ elemBoundIndex uncached idMap b)) :
    (correlateAll cache_entries uncached idMap (o, w) i₁ l₁).map Prod.fst =
    (correlateAll cache_entries uncached idMap (o, w) i₂ l₂).map Prod.fst := by
  rw [correlateAll_ordered cache_entries uncached idMap l₁ o w i₁ hbound,
    correlateAll_ordered cache_entries uncached idMap l₂ o w i₂
      (fun e he => hbound e (hperm.mem_iff.mpr he)),
    any_perm _ hperm,
    foldl_applyOrd_perm cache_entries uncached idMap l₁ l₂ o hperm hbound
      hdistinct]

/-! ### Shape of the assembled response -/

lemma return_response_true_shape (o : List (Option JsonRpcResponse))
    (out : HttpOutcome) (h : return_response true o = some out) :
    ∃ r, out = .okSingle r := by
  unfold return_response at h
  rcases ho : o.head? with _ | (_ | r)
  · simp [ho] at h
  · simp [ho] at h
  · rw [ho] at h
    exact ⟨r, (Option.some.inj h).symm⟩

lemma rpc_call_arr (chains : List (String × ChainState)) (chain : String)
    (cs : ChainState) (requests : List JsonValue)
    (hroute : routeChain chains chain = some cs) :
    rpc_call chains chain (.arr requests) = rpc_core cs requests false := by
  unfold rpc_call
  rw [hroute]

lemma rpc_call_obj (chains : List (String × ChainState)) (chain : String)
    (cs : ChainState) (fields : List (String × JsonValue))
    (hroute : routeChain chains chain = some cs) :
    rpc_call chains chain (.obj fields) = rpc_core cs [.obj fields] true := by
  unfold rpc_call
  rw [hroute]

lemma rpc_core_single_shape (cs : ChainState) (requests : List JsonValue)
    (out : HttpOutcome) (h : rpc_core cs requests true = some out) :
    ∃ r, out = .okSingle r := by
  unfold rpc_core at h
  repeat' split at h
  all_goals first
    | exact ⟨_, (Option.some.inj h).symm⟩
    | exact absurd h (by simp)
    | exact return_response_true_shape _ _ h

lemma rpc_core_batch_shape (cs : ChainState) (requests : List JsonValue)
    (out : HttpOutcome) (h : rpc_core cs requests false = some out) :
    (∃ rs, out = .okBatch rs) ∨
    ∃ err, cs.cache_factory 0 = .error err ∧
      out = .okSingle (JsonRpcResponse.from_error none
        (.internalError (some (errObj "fail to get cache backend" err)))) := by
  unfold rpc_core at h
  split at h
  · next err heq =>
    right
    exact ⟨err, heq, (Option.some.inj h).symm⟩
  · left
    repeat' split at h
    all_goals first
      | exact absurd h (by simp)
      | exact ⟨_, (Option.some.inj h).symm⟩

/-! ### Concrete fixtures for witnesses and counterexamples -/

/-- A cache backend whose reads always fail (reads degrade to misses). -/
def fxBackend : CacheBackend := ⟨fun _ _ => .error "read unavailable"⟩

/-- A chain state with no cacheable methods whose upstream answers id 1. -/
def fxEcho : ChainState :=
  ⟨fun _ => none, fun _ => .ok fxBackend,
   fun _ => .ok (.arr [.obj [("id", .num 1), ("result", .str "ok")]])⟩

/-- A chain state whose backend factory always fails. -/
def fxFactoryDown : ChainState :=
  ⟨fun _ => none, fun _ => .error "pool down", fun _ => .ok (.arr [])⟩

/-- A chain state whose backend factory fails on the second acquisition
(the write-back phase) only. -/
def fxFactorySecondDown : ChainState :=
  ⟨fun _ => none,
   fun n => if n = 0 then .ok fxBackend else .error "pool exhausted",
   fun _ => .ok (.arr [.obj [("id", .num 1), ("result", .str "ok")]])⟩

/-! ### The claims -/

/-- **C1** (code bug, `main.rs` line 67): a one-entry batch whose entry
has an invalid id is answered with a two-element array — a null hole at
the entry's index 0 plus the InvalidRequest response appended at the end —
instead of exactly one response per entry: `Vec::push` is used instead of
indexed assignment for malformed entries. -/
theorem c1_malformed_entry_breaks_batch_length :
    rpc_call [("C1X", fxEcho)] "C1X"
      (.arr [.obj [("id", .bool true), ("method", .str "m")]]) =
    some (.okBatch [none,
      some (JsonRpcResponse.from_error none .invalidRequest)]) := rfl

/-- **C2** (code bug, `main.rs` line 67): in the batch
`[{invalid id}, {"id":1,"method":"m"}]` the malformed entry's
InvalidRequest response appears at position 2 (appended at the end, with
a null left at its original position 0) instead of at its original
position 0. -/
theorem c2_malformed_entry_wrong_position :
    rpc_call [("C2X", fxEcho)] "C2X"
      (.arr [.obj [("id", .arr []), ("method", .str "m")],
        .obj [("id", .num 1), ("method", .str "m")]]) =
    some (.okBatch [none,
      some (JsonRpcResponse.from_result (.num 1) (.str "ok")),
      some (JsonRpcResponse.from_error none .invalidRequest)]) := rfl

/-- **C3** (counterexample): an array request whose chain's backend
factory fails at classification receives a single JSON object response,
not an array — refuting shape preservation "on every path". -/
theorem c3_array_request_gets_single_object :
    rpc_call [("C3X", fxFactoryDown)] "C3X"
      (.arr [.obj [("id", .num 1), ("method", .str "m")],
        .obj [("id", .num 2), ("method", .str "m")]]) =
    some (.okSingle (JsonRpcResponse.from_error none
      (.internalError (some (errObj "fail to get cache backend" "pool down"))))) := rfl

/-- **C3** (amended): whenever the handler returns a response at all, a
single-object request yields a single object response; an array request
yields an array response except on the classification-phase
backend-acquisition path, which yields a single InternalError object. -/
theorem c3_shape_preservation_amended (chains : List (String × ChainState))
    (chain : String) (cs : ChainState) (body : JsonValue) (out : HttpOutcome)
    (hroute : routeChain chains chain = some cs)
    (hrun : rpc_call chains chain body = some out) :
    (∀ fields, body = .obj fields → ∃ r, out = .okSingle r) ∧
    (∀ elems, body = .arr elems → (∃ rs, out = .okBatch rs) ∨
      ∃ err, cs.cache_factory 0 = .error err ∧
        out = .okSingle (JsonRpcResponse.from_error none
          (.internalError (some (errObj "fail to get cache backend" err))))) := by
  constructor
  · rintro fields rfl
    rw [rpc_call_obj chains chain cs fields hroute] at hrun
    exact rpc_core_single_shape _ _ _ hrun
  · rintro elems rfl
    rw [rpc_call_arr chains chain cs elems hroute] at hrun
    exact rpc_core_batch_shape _ _ _ hrun

theorem c3_shape_preservation_amended_witness :
    ∃ r, HttpOutcome.okSingle (JsonRpcResponse.from_error none
      (.internalError (some (errObj "fail to get cache backend" "pool down")))) =
      .okSingle r :=
  (c3_shape_preservation_amended [("C3W", fxFactoryDown)] "C3W" fxFactoryDown
    (.obj [("id", .num 3), ("method", .str "m")])
    (.okSingle (JsonRpcResponse.from_error none
      (.internalError (some (errObj "fail to get cache backend" "pool down")))))
    rfl rfl).1 [("id", .num 3), ("method", .str "m")] rfl

/-- **C4** (counterexample): with a two-entry batch and a failing backend
factory, the handler returns one single error object (id null), not a
batch of two per-slot InternalError responses. -/
theorem c4_classify_backend_failure_not_per_slot :
    rpc_call [("C4X", fxFactoryDown)] "C4X"
      (.arr [.obj [("id", .num 7), ("method", .str "a")],
        .obj [("id", .num 8), ("method", .str "b")]]) =
    some (.okSingle (JsonRpcResponse.from_error none
      (.internalError (some (errObj "fail to get cache backend" "pool down"))))) := rfl

/-- **C4** (amended): when acquiring the cache backend handle fails at the
start of classification, the handler short-circuits with a single
InternalError response (id null) whose reason is the acquisition error,
regardless of the batch size. -/
theorem c4_classify_backend_failure_single_error
    (chains : List (String × ChainState)) (chain : String) (cs : ChainState)
    (requests : List JsonValue) (err : String)
    (hroute : routeChain chains chain = some cs)
    (hfac : cs.cache_factory 0 = .error err) :
    rpc_call chains chain (.arr requests) =
      some (.okSingle (JsonRpcResponse.from_error none
        (.internalError (some (errObj "fail to get cache backend" err))))) := by
  rw [rpc_call_arr chains chain cs requests hroute]
  unfold rpc_core
  rw [hfac]

theorem c4_classify_backend_failure_single_error_witness :
    rpc_call [("C4W", fxFactoryDown)] "C4W" (.arr [.obj [("id", .num 1)]]) =
      some (.okSingle (JsonRpcResponse.from_error none
        (.internalError (some (errObj "fail to get cache backend" "pool down"))))) :=
  c4_classify_backend_failure_single_error [("C4W", fxFactoryDown)] "C4W"
    fxFactoryDown [.obj [("id", .num 1)]] "pool down" rfl rfl

/-- **C5** (counterexample): the upstream call succeeded with a result for
id 1, yet because the second `get_instance()` fails, the client receives a
per-slot InternalError ("fail to get cache backend") instead of the
fetched result — a client-visible failure from a post-classification
`instance()` error. -/
theorem c5_writeback_instance_failure_client_visible :
    rpc_call [("C5X", fxFactorySecondDown)] "C5X"
      (.arr [.obj [("id", .num 1), ("method", .str "m")]]) =
    some (.okBatch [some (JsonRpcResponse.from_error (some (.num 1))
      (.internalError (some (errObj "fail to get cache backend" "pool exhausted"))))]) := rfl

/-- **C5** (amended): a backend-acquisition failure at the write-back
phase (after a successful upstream round-trip) resolves every pending
slot to an InternalError with reason "fail to get cache backend" — it is
client-visible, not an uncached passthrough. -/
theorem c5_writeback_instance_failure_fills_slots
    (chains : List (String × ChainState)) (chain : String) (cs : ChainState)
    (requests : List JsonValue) (st : ClassifyState) (cb : CacheBackend)
    (vals : List JsonValue) (err : String)
    (hroute : routeChain chains chain = some cs)
    (hfac0 : cs.cache_factory 0 = .ok cb)
    (hclassify : classifyAll cs.cache_entries cb
      ⟨List.replicate requests.length none, [], fun _ => none⟩ 0 requests = some st)
    (hne : st.uncached.isEmpty = false)
    (hupstream : cs.upstream st.uncached = .ok (.arr vals))
    (hfac1 : cs.cache_factory 1 = .error err) :
    rpc_call chains chain (.arr requests) =
      some (.okBatch (fillAll st.ordered st.uncached
        (fun rq => JsonRpcResponse.from_error (some rq.id)
          (.internalError (some (errObj "fail to get cache backend" err)))))) := by
  rw [rpc_call_arr chains chain cs requests hroute]
  unfold rpc_core
  simp [hfac0, hclassify, hne, hupstream, hfac1, return_response]

theorem c5_writeback_instance_failure_fills_slots_witness :
    rpc_call [("C5W", fxFactorySecondDown)] "C5W"
      (.arr [.obj [("id", .num 1), ("method", .str "m")]]) =
      some (.okBatch (fillAll [none] [⟨0, .num 1, "m", .null, none⟩]
        (fun rq => JsonRpcResponse.from_error (some rq.id)
          (.internalError (some (errObj "fail to get cache backend" "pool exhausted")))))) :=
  c5_writeback_instance_failure_fills_slots [("C5W", fxFactorySecondDown)] "C5W"
    fxFactorySecondDown [.obj [("id", .num 1), ("method", .str "m")]]
    ⟨[none], [⟨0, .num 1, "m", .null, none⟩], fun k => if k = .num 1 then some 0 else none⟩
    fxBackend [.obj [("id", .num 1), ("result", .str "ok")]] "pool exhausted"
    rfl rfl rfl rfl rfl rfl

/-! ### Routing -/

lemma routeChain_buildChains_found (endpoints : List (String × ChainState))
    (chain name : String) (st : ChainState)
    (hnodup : endpoints.Pairwise (fun a b => toUppercase a.1 ≠ toUppercase b.1))
    (hmem : (name, st) ∈ endpoints)
    (heq : toUppercase chain = toUppercase name) :
    routeChain (buildChains endpoints) chain = some st := by
  induction endpoints with
  | nil => simp at hmem
  | cons p rest ih =>
    obtain ⟨pn, ps⟩ := p
    rcases List.mem_cons.mp hmem with h | h
    · obtain ⟨h1, h2⟩ := Prod.mk.injEq .. ▸ h
      subst h1
      subst h2
      have : (toUppercase chain == toUppercase name) = true := by
        rw [beq_iff_eq]
        exact heq
      simp [routeChain, buildChains, List.lookup, this]
    · have hhead := (List.pairwise_cons.mp hnodup).1
      have hne : toUppercase chain ≠ toUppercase pn := by
        rw [heq]
        intro hcontra
        exact (hhead (name, st) h) hcontra.symm
      have hbeq : (toUppercase chain == toUppercase pn) = false := by
        rw [beq_eq_false_iff_ne]
        exact hne
      have htail := (List.pairwise_cons.mp hnodup).2
      have := ih htail h
      simp only [routeChain, buildChains, List.map_cons, List.lookup, hbeq] at this ⊢
      exact this

lemma routeChain_buildChains_missing (endpoints : List (String × ChainState))
    (chain : String)
    (hmiss : ∀ p ∈ endpoints, toUppercase chain ≠ toUppercase p.1) :
    routeChain (buildChains endpoints) chain = none := by
  induction endpoints with
  | nil => rfl
  | cons p rest ih =>
    have hbeq : (toUppercase chain == toUppercase p.1) = false := by
      rw [beq_eq_false_iff_ne]
      exact hmiss p (by simp)
    have := ih (fun q hq => hmiss q (by simp [hq]))
    simp only [routeChain, buildChains, List.map_cons, List.lookup, hbeq] at this ⊢
    exact this

/-- **C8**: with endpoint names registered under their canonical
uppercase form, a path segment equal to a configured name up to letter
case routes to that endpoint's chain state, and a segment matching no
configured name (up to case) yields HTTP 404 with body
"endpoint not supported". -/
theorem c8_chain_routing_case_insensitive
    (endpoints : List (String × ChainState)) (chain : String)
    (body : JsonValue)
    (hnodup : endpoints.Pairwise (fun a b => toUppercase a.1 ≠ toUppercase b.1)) :
    (∀ name st, (name, st) ∈ endpoints → toUppercase chain = toUppercase name →
      routeChain (buildChains endpoints) chain = some st) ∧
    ((∀ p ∈ endpoints, toUppercase chain ≠ toUppercase p.1) →
      rpc_call (buildChains endpoints) chain body =
        some (.notFound "endpoint not supported")) := by
  constructor
  · intro name st hmem heq
    exact routeChain_buildChains_found endpoints chain name st hnodup hmem heq
  · intro hmiss
    unfold rpc_call
    rw [routeChain_buildChains_missing endpoints chain hmiss]

theorem c8_chain_routing_case_insensitive_witness :
    routeChain (buildChains [("Eth", fxEcho), ("gnosis", fxFactoryDown)]) "eTH" =
      some fxEcho ∧
    rpc_call (buildChains [("Eth", fxEcho), ("gnosis", fxFactoryDown)]) "sepolia"
      (.obj []) = some (.notFound "endpoint not supported") :=
  ⟨(c8_chain_routing_case_insensitive [("Eth", fxEcho), ("gnosis", fxFactoryDown)]
      "eTH" (.obj []) (by simp [toUppercase])).1 "Eth" fxEcho (by simp) rfl,
   (c8_chain_routing_case_insensitive [("Eth", fxEcho), ("gnosis", fxFactoryDown)]
      "sepolia" (.obj []) (by simp [toUppercase])).2 (by simp [toUppercase])⟩

/-- **C6**: for an upstream element bound by id to a pending-cacheable
request (`cache_key = some k`), with a null `error` field and a `result`:
on extract-value success with a cacheable value the slot holds the result
response and `(key, value)` is appended to the write trace; on a
not-cacheable value no write occurs; on extract-value error the
already-resolved success response at the slot is overwritten with an
InternalError carrying the extraction reason, and no write occurs. -/
theorem c6_extract_value_writeback (cache_entries : String → Option Handler)
    (uncached : List RpcRequest) (idMap : RequestId → Option Nat)
    (o : List (Option JsonRpcResponse)) (w : List (String × JsonValue))
    (i : Nat) (e : JsonValue) (id : RequestId) (j : Nat) (rq : RpcRequest)
    (errRest result resRest : JsonValue) (k : String) (cache_entry : Handler)
    (hid : RequestId.tryFrom (e.index "id") = some id)
    (hmap : idMap id = some j)
    (hj : uncached[j]? = some rq)
    (herr : e.takeKey "error" = some (.null, errRest))
    (hres : errRest.takeKey "result" = some (result, resRest))
    (hkey : rq.cache_key = some k)
    (hentry : cache_entries rq.method = some cache_entry) :
    correlateOne cache_entries uncached idMap (o, w) i e =
      match cache_entry.extract_cache_value result with
      | .ok (true, v) =>
        some (o.set rq.index (some (JsonRpcResponse.from_result rq.id result)),
          w ++ [(k, v)])
      | .ok (false, _) =>
        some (o.set rq.index (some (JsonRpcResponse.from_result rq.id result)), w)
      | .error msg =>
        some (o.set rq.index (some (JsonRpcResponse.from_error (some rq.id)
          (.internalError (some (errObj "fail to extract cache value" msg))))), w) := by
  have hbr : boundRequest uncached idMap e = some rq := by
    simp [boundRequest, hid, hmap, hj]
  rw [correlateOne_by_id cache_entries uncached idMap o w i e rq hbr]
  rcases hv : cache_entry.extract_cache_value result with msg | ⟨can, v⟩
  · simp [elemOutcome, herr, hres, hkey, hentry, hv]
  · cases can <;> simp [elemOutcome, herr, hres, hkey, hentry, hv]

/-- A policy accepting every value as cacheable, for the C6 witness. -/
def fxHandlerAccept : Handler := ⟨fun _ => .ok (some "K6"), fun v => .ok (true, v)⟩

theorem c6_extract_value_writeback_witness :
    correlateOne (fun _ => some fxHandlerAccept)
      [⟨0, .num 1, "m", .null, some "K6"⟩] (fun k => if k = .num 1 then some 0 else none)
      ([none], []) 0 (.obj [("id", .num 1), ("result", .str "v")]) =
      some ([some (JsonRpcResponse.from_result (.num 1) (.str "v"))],
        [("K6", .str "v")]) := by
  have h := c6_extract_value_writeback (fun _ => some fxHandlerAccept)
    [⟨0, .num 1, "m", .null, some "K6"⟩] (fun k => if k = .num 1 then some 0 else none)
    [none] [] 0 (.obj [("id", .num 1), ("result", .str "v")]) (.num 1) 0
    ⟨0, .num 1, "m", .null, some "K6"⟩
    (.obj [("id", .num 1), ("result", .str "v"), ("error", .null)]) (.str "v")
    (.obj [("id", .num 1), ("result", .null), ("error", .null)]) "K6"
    fxHandlerAccept rfl rfl rfl rfl rfl rfl rfl
  simpa using h

/-- **C9** (counterexample): the upstream returns the one-element array
`[42]` for one pending request; the element binds positionally, and the
mutable `response["error"]` access panics on the non-object element,
aborting the handler (no response at all) instead of handling it. -/
theorem c9_nonobject_element_panics :
    rpc_call [("C9X", ⟨fun _ => none, fun _ => .ok fxBackend,
        fun _ => .ok (.arr [.num 42])⟩)] "C9X"
      (.arr [.obj [("id", .num 1), ("method", .str "m")]]) = none := rfl

/-- **C9** (amended): an upstream element that is neither an object nor
JSON null (its mutable field access panics) is survived only when it fails
to bind: if its (null) id is in the id map or its index falls inside the
pending range, the handler panics; otherwise the element is dropped and
the state is unchanged. -/
theorem c9_nonobject_element_bound_or_dropped
    (cache_entries : String → Option Handler) (uncached : List RpcRequest)
    (idMap : RequestId → Option Nat) (o : List (Option JsonRpcResponse))
    (w : List (String × JsonValue)) (i : Nat) (e : JsonValue)
    (hpanic : e.takeKey "error" = none) :
    correlateOne cache_entries uncached idMap (o, w) i e =
      if (idMap RequestId.null).isSome ∨ i < uncached.length then none
      else some (o, w) := by
  have hid : e.index "id" = .null := by
    cases e with
    | null => simp [JsonValue.takeKey] at hpanic
    | obj fields =>
      rcases h : fields.lookup "error" with _ | x <;>
        simp [JsonValue.takeKey, h] at hpanic
    | _ => rfl
  rcases hm : idMap RequestId.null with _ | j
  · rcases hf : uncached[i]? with _ | rq
    · have hge : uncached.length ≤ i := List.getElem?_eq_none_iff.mp hf
      simp [correlateOne, bindResponse, bindFallback, hid, RequestId.tryFrom,
        hm, hf, Nat.not_lt.mpr hge]
    · obtain ⟨hlt, -⟩ := List.getElem?_eq_some.mp hf
      simp [correlateOne, bindResponse, bindFallback, hid, RequestId.tryFrom,
        hm, hf, elemStep, hpanic, hlt]
  · rcases hj : uncached[j]? with _ | rq
    · simp [correlateOne, bindResponse, hid, RequestId.tryFrom, hm, hj]
    · simp [correlateOne, bindResponse, hid, RequestId.tryFrom, hm, hj,
        elemStep, hpanic]

theorem c9_nonobject_element_bound_or_dropped_witness :
    correlateOne (fun _ => none) [] (fun _ => none)
      (([] : List (Option JsonRpcResponse)), ([] : List (String × JsonValue)))
      0 (.num 42) = some ([], []) := by
  have h := c9_nonobject_element_bound_or_dropped (fun _ => none) []
    (fun _ => none) [] [] 0 (.num 42) rfl
  simpa using h

/-! ### C7: upstream response order -/

/-- An upstream element with a fresh id 99 (not in the pending map). -/
def fxStray : JsonValue := .obj [("id", .num 99), ("result", .str "X")]

/-- An upstream element answering pending id 2. -/
def fxAnswer2 : JsonValue := .obj [("id", .num 2), ("result", .str "Y")]

/-- Upstream returns `[fxStray, fxAnswer2]`. -/
def fxPermA : ChainState :=
  ⟨fun _ => none, fun _ => .ok fxBackend, fun _ => .ok (.arr [fxStray, fxAnswer2])⟩

/-- Upstream returns the same two elements permuted. -/
def fxPermB : ChainState :=
  ⟨fun _ => none, fun _ => .ok fxBackend, fun _ => .ok (.arr [fxAnswer2, fxStray])⟩

/-- The two-entry batch with ids 1 and 2. -/
def fxPermBody : JsonValue :=
  .arr [.obj [("id", .num 1), ("method", .str "m")],
    .obj [("id", .num 2), ("method", .str "m")]]

/-- **C7** (counterexample): permuting the upstream response array changes
the final assembled response, because an element whose id is not in the
map binds positionally and its landing slot depends on its position. -/
theorem c7_upstream_permutation_changes_response :
    List.Perm [fxStray, fxAnswer2] [fxAnswer2, fxStray] ∧
    rpc_call [("C7X", fxPermA)] "C7X" fxPermBody =
      some (.okBatch [some (JsonRpcResponse.from_result (.num 1) (.str "X")),
        some (JsonRpcResponse.from_result (.num 2) (.str "Y"))]) ∧
    rpc_call [("C7X", fxPermB)] "C7X" fxPermBody =
      some (.okBatch [none,
        some (JsonRpcResponse.from_result (.num 2) (.str "X"))]) ∧
    some (HttpOutcome.okBatch [some (JsonRpcResponse.from_result (.num 1) (.str "X")),
        some (JsonRpcResponse.from_result (.num 2) (.str "Y"))]) ≠
      some (HttpOutcome.okBatch [none,
        some (JsonRpcResponse.from_result (.num 2) (.str "X"))]) := by
  refine ⟨List.Perm.swap fxAnswer2 fxStray [], rfl, rfl, ?_⟩
  intro h
  injection h with h1
  injection h1 with h2
  injection h2 with h3 h4
  exact Option.noConfusion h3

/-- **C7** (amended): when every upstream response element binds through
the id map (no positional fallback) and the bound slots are pairwise
distinct, permuting the upstream response array does not change the final
assembled response.  The two runs differ only in the order of the
upstream's response array. -/
theorem c7_upstream_order_independent
    (chains₁ chains₂ : List (String × ChainState)) (chain : String)
    (cs₁ cs₂ : ChainState) (requests l₁ l₂ : List JsonValue)
    (st : ClassifyState) (cb : CacheBackend)
    (hroute₁ : routeChain chains₁ chain = some cs₁)
    (hroute₂ : routeChain chains₂ chain = some cs₂)
    (hent : cs₂.cache_entries = cs₁.cache_entries)
    (hfac : cs₂.cache_factory = cs₁.cache_factory)
    (hperm : l₁.Perm l₂)
    (hfac0 : cs₁.cache_factory 0 = .ok cb)
    (hclassify : classifyAll cs₁.cache_entries cb
      ⟨List.replicate requests.length none, [], fun _ => none⟩ 0 requests = some st)
    (hup₁ : cs₁.upstream st.uncached = .ok (.arr l₁))
    (hup₂ : cs₂.upstream st.uncached = .ok (.arr l₂))
    (hbound : ∀ e ∈ l₁, (boundRequest st.uncached st.idMap e).isSome)
    (hdistinct : l₁.Pairwise (fun a b =>
      elemBoundIndex st.uncached st.idMap a ≠ elemBoundIndex st.uncached st.idMap b)) :
    rpc_call chains₁ chain (.arr requests) =
      rpc_call chains₂ chain (.arr requests) := by
  rw [rpc_call_arr chains₁ chain cs₁ requests hroute₁,
    rpc_call_arr chains₂ chain cs₂ requests hroute₂]
  unfold rpc_core
  rw [hent, hfac]
  simp only [hfac0, hclassify]
  by_cases hemp : st.uncached.isEmpty
  · simp [hemp]
  · simp only [hemp, Bool.false_eq_true, if_false, Bool.not_eq_true] at *
    rw [hup₁, hup₂]
    simp only []
    rcases hf1 : cs₁.cache_factory 1 with err | cb2
    · simp [hf1]
    · simp only [hf1]
      have hmap := correlateAll_perm cs₁.cache_entries st.uncached st.idMap
        l₁ l₂ st.ordered [] 0 0 hperm hbound hdistinct
      rcases hc1 : correlateAll cs₁.cache_entries st.uncached st.idMap
          (st.ordered, []) 0 l₁ with _ | ⟨o1, w1⟩ <;>
        rcases hc2 : correlateAll cs₁.cache_entries st.uncached st.idMap
            (st.ordered, []) 0 l₂ with _ | ⟨o2, w2⟩
      all_goals rw [hc1, hc2] at hmap
      all_goals simp at hmap
      all_goals simp [hc1, hc2]
      rw [hmap]

/-- An upstream element answering pending id 1. -/
def fxAnswer1 : JsonValue := .obj [("id", .num 1), ("result", .str "X")]

/-- Upstream answers ids 1 and 2 in order. -/
def fxPermW1 : ChainState :=
  ⟨fun _ => none, fun _ => .ok fxBackend, fun _ => .ok (.arr [fxAnswer1, fxAnswer2])⟩

/-- Upstream answers ids 2 and 1 in order. -/
def fxPermW2 : ChainState :=
  ⟨fun _ => none, fun _ => .ok fxBackend, fun _ => .ok (.arr [fxAnswer2, fxAnswer1])⟩

/-- The classification state of `fxPermBody` with no cacheable methods. -/
def fxPermSt : ClassifyState :=
  ⟨[none, none],
   [⟨0, .num 1, "m", .null, none⟩, ⟨1, .num 2, "m", .null, none⟩],
   fun k => if k = .num 2 then some 1 else if k = .num 1 then some 0 else none⟩

theorem c7_upstream_order_independent_witness :
    rpc_call [("C7W", fxPermW1)] "C7W" fxPermBody =
      rpc_call [("C7W", fxPermW2)] "C7W" fxPermBody :=
  c7_upstream_order_independent [("C7W", fxPermW1)] [("C7W", fxPermW2)] "C7W"
    fxPermW1 fxPermW2
    [.obj [("id", .num 1), ("method", .str "m")],
      .obj [("id", .num 2), ("method", .str "m")]]
    [fxAnswer1, fxAnswer2] [fxAnswer2, fxAnswer1] fxPermSt fxBackend
    rfl rfl rfl rfl (List.Perm.swap fxAnswer2 fxAnswer1 []) rfl rfl rfl rfl
    (by decide) (by decide)

/-! ### C10: classification invariant and frame properties -/

/-- Invariant of the classification loop at cursor `k` over a batch of
`n` entries: not-yet-visited positions are unresolved, pending indices
are below the cursor, and a resolved position is never a pending index. -/
def ClassifyInv (n k : Nat) (st : ClassifyState) : Prop :=
  n ≤ st.ordered.length ∧
  (∀ j, k ≤ j → j < n → st.ordered[j]? = some none) ∧
  (∀ rq ∈ st.uncached, rq.index < k) ∧
  (∀ i, i < n → (∃ x, st.ordered[i]? = some (some x)) →
    ∀ rq ∈ st.uncached, rq.index ≠ i)

lemma classifyInv_append (n k : Nat) (st : ClassifyState)
    (x : Option JsonRpcResponse) (hinv : ClassifyInv n k st) :
    ClassifyInv n (k + 1) { st with ordered := st.ordered ++ [x] } := by
  obtain ⟨hlen, hunres, hidx, hdisj⟩ := hinv
  refine ⟨?_, ?_, fun rq hrq => Nat.lt_succ_of_lt (hidx rq hrq), ?_⟩
  · simp only [List.length_append, List.length_cons, List.length_nil]
    omega
  · intro j hkj hjn
    rw [List.getElem?_append, if_pos (by omega)]
    exact hunres j (by omega) hjn
  · intro i hi hsome rq hrq
    apply hdisj i hi _ rq hrq
    obtain ⟨y, hy⟩ := hsome
    rw [List.getElem?_append, if_pos (by omega)] at hy
    exact ⟨y, hy⟩

lemma classifyInv_push (n k : Nat) (st : ClassifyState) (hk : k < n)
    (id : RequestId) (method : String) (params : JsonValue)
    (key : Option String) (hinv : ClassifyInv n k st) :
    ClassifyInv n (k + 1) (st.pushUncached k id method params key) := by
  obtain ⟨hlen, hunres, hidx, hdisj⟩ := hinv
  refine ⟨hlen, fun j hkj hjn => hunres j (by omega) hjn, ?_, ?_⟩
  · intro rq hrq
    rcases List.mem_append.mp hrq with h | h
    · exact Nat.lt_succ_of_lt (hidx rq h)
    · simp at h
      subst h
      exact Nat.lt_succ_self k
  · intro i hi hsome rq hrq
    rcases List.mem_append.mp hrq with h | h
    · exact hdisj i hi hsome rq h
    · simp at h
      subst h
      intro hcontra
      obtain ⟨x, hx⟩ := hsome
      simp only [ClassifyState.pushUncached] at hx
      rw [show (⟨k, id, method, params, key⟩ : RpcRequest).index = k from rfl] at hcontra
      rw [← hcontra] at hx
      rw [hunres k (le_refl k) hk] at hx
      simp at hx

lemma classifyInv_set (n k : Nat) (st : ClassifyState) (hk : k < n)
    (resp : JsonRpcResponse) (hinv : ClassifyInv n k st) :
    ClassifyInv n (k + 1)
      { st with ordered := st.ordered.set k (some resp) } := by
  obtain ⟨hlen, hunres, hidx, hdisj⟩ := hinv
  refine ⟨by simpa using hlen, ?_,
    fun rq hrq => Nat.lt_succ_of_lt (hidx rq hrq), ?_⟩
  · intro j hkj hjn
    rw [List.getElem?_set_ne (by omega : k ≠ j)]
    exact hunres j (by omega) hjn
  · intro i hi hsome rq hrq
    by_cases hik : i = k
    · subst hik
      exact fun hcontra => absurd (hcontra ▸ hidx rq hrq) (lt_irrefl i)
    · obtain ⟨x, hx⟩ := hsome
      rw [List.getElem?_set_ne (fun hc => hik hc.symm)] at hx
      exact hdisj i hi ⟨x, hx⟩ rq hrq

lemma classifyOne_inv (cache_entries : String → Option Handler)
    (cb : CacheBackend) (st : ClassifyState) (k : Nat) (request : JsonValue)
    (st' : ClassifyState) (n : Nat) (hk : k < n) (hinv : ClassifyInv n k st)
    (h : classifyOne cache_entries cb st k request = some st') :
    ClassifyInv n (k + 1) st' := by
  rcases h1 : extract_single_request_info request with _ |
    (⟨rid, err⟩ | ⟨id, method, params⟩)
  · simp [classifyOne, h1] at h
  · simp [classifyOne, h1] at h
    subst h
    exact classifyInv_append n k st _ hinv
  · rcases h2 : cache_entries method with _ | entry
    · simp [classifyOne, h1, h2] at h
      subst h
      exact classifyInv_push n k st hk id method params none hinv
    · rcases h3 : entry.extract_cache_key params with e | (_ | pk)
      · simp [classifyOne, h1, h2, h3] at h
        subst h
        exact classifyInv_push n k st hk id method params none hinv
      · simp [classifyOne, h1, h2, h3] at h
        subst h
        exact classifyInv_push n k st hk id method params none hinv
      · rcases h4 : cb.read method pk with e | (⟨ck, cv⟩ | mk)
        · simp [classifyOne, h1, h2, h3, h4] at h
          subst h
          exact classifyInv_push n k st hk id method params none hinv
        · simp [classifyOne, h1, h2, h3, h4] at h
          subst h
          exact classifyInv_set n k st hk _ hinv
        · simp [classifyOne, h1, h2, h3, h4] at h
          subst h
          exact classifyInv_push n k st hk id method params (some mk) hinv

lemma classifyAll_inv (cache_entries : String → Option Handler)
    (cb : CacheBackend) :
    ∀ (l : List JsonValue) (k : Nat) (st st' : ClassifyState) (n : Nat),
      k + l.length ≤ n → ClassifyInv n k st →
      classifyAll cache_entries cb st k l = some st' →
      ClassifyInv n (k + l.length) st'
  | [], k, st, st', n, _, hinv, h => by
    simp [classifyAll] at h
    subst h
    simpa using hinv
  | r :: rs, k, st, st', n, hle, hinv, h => by
    rcases h1 : classifyOne cache_entries cb st k r with _ | st1
    · simp [classifyAll, h1] at h
    · have hk : k < n := by
        simp only [List.length_cons] at hle
        omega
      have hinv1 := classifyOne_inv cache_entries cb st k r st1 n hk hinv h1
      have hrec := classifyAll_inv cache_entries cb rs (k + 1) st1 st' n
        (by simp only [List.length_cons] at hle ⊢; omega) hinv1
        (by simpa [classifyAll, h1] using h)
      simpa [Nat.add_comm, Nat.add_assoc, Nat.add_left_comm] using hrec

lemma classifyInv_init (n : Nat) :
    ClassifyInv n 0 ⟨List.replicate n none, [], fun _ => none⟩ := by
  refine ⟨by simp, ?_, by simp, ?_⟩
  · intro j _ hj
    simp [List.getElem?_replicate, hj]
  · intro i hi hsome rq hrq
    simp at hrq

/-- Positions resolved during classification are not pending indices. -/
lemma classify_disjoint (cache_entries : String → Option Handler)
    (cb : CacheBackend) (requests : List JsonValue) (st : ClassifyState)
    (i : Nat) (resp : JsonRpcResponse)
    (h : classifyAll cache_entries cb
      ⟨List.replicate requests.length none, [], fun _ => none⟩ 0 requests = some st)
    (hi : i < requests.length)
    (hslot : st.ordered[i]? = some (some resp)) :
    ∀ rq ∈ st.uncached, rq.index ≠ i := by
  have hinv := classifyAll_inv cache_entries cb requests 0 _ st requests.length
    (by simp) (classifyInv_init requests.length) h
  exact hinv.2.2.2 i hi ⟨resp, hslot⟩

lemma fillAll_frame (mk : RpcRequest → JsonRpcResponse) :
    ∀ (uncached : List RpcRequest) (ordered : List (Option JsonRpcResponse))
      (pos : Nat), (∀ rq ∈ uncached, rq.index ≠ pos) →
      (fillAll ordered uncached mk)[pos]? = ordered[pos]?
  | [], o, pos, _ => rfl
  | rq :: rest, o, pos, H => by
    have hstep : fillAll o (rq :: rest) mk =
        fillAll (o.set rq.index (some (mk rq))) rest mk := rfl
    rw [hstep,
      fillAll_frame mk rest (o.set rq.index (some (mk rq))) pos
        (fun r hr => H r (by simp [hr])),
      List.getElem?_set_ne (H rq (by simp))]

lemma bindResponse_bound_mem (uncached : List RpcRequest)
    (idMap : RequestId → Option Nat) (i : Nat) (e : JsonValue)
    (rq : RpcRequest) (h : bindResponse uncached idMap i e = .bound rq) :
    rq ∈ uncached := by
  rcases h1 : RequestId.tryFrom (e.index "id") with _ | id
  · rcases h2 : uncached[i]? with _ | rq'
    · simp [bindResponse, bindFallback, h1, h2] at h
    · simp [bindResponse, bindFallback, h1, h2] at h
      subst h
      exact List.getElem?_mem h2
  · rcases h2 : idMap id with _ | j
    · rcases h3 : uncached[i]? with _ | rq'
      · simp [bindResponse, bindFallback, h1, h2, h3] at h
      · simp [bindResponse, bindFallback, h1, h2, h3] at h
        subst h
        exact List.getElem?_mem h3
    · rcases h3 : uncached[j]? with _ | rq'
      · simp [bindResponse, h1, h2, h3] at h
      · simp [bindResponse, h1, h2, h3] at h
        subst h
        exact List.getElem?_mem h3

lemma correlateOne_frame (cache_entries : String → Option Handler)
    (uncached : List RpcRequest) (idMap : RequestId → Option Nat)
    (o : List (Option JsonRpcResponse)) (w : List (String × JsonValue))
    (i : Nat) (e : JsonValue) (o' : List (Option JsonRpcResponse))
    (w' : List (String × JsonValue)) (pos : Nat)
    (h : correlateOne cache_entries uncached idMap (o, w) i e = some (o', w'))
    (H : ∀ rq ∈ uncached, rq.index ≠ pos) :
    o'[pos]? = o[pos]? := by
  unfold correlateOne at h
  rcases hb : bindResponse uncached idMap i e with _ | _ | rq
  · rw [hb] at h
    simp at h
  · rw [hb] at h
    simp at h
    rw [h.1]
  · rw [hb] at h
    change elemStep cache_entries rq (o, w) e = some (o', w') at h
    rw [elemStep_eq] at h
    rcases hout : elemOutcome cache_entries rq e with _ | p
    · rw [hout] at h
      simp at h
    · rw [hout] at h
      simp at h
      rw [← h.1,
        List.getElem?_set_ne (H rq (bindResponse_bound_mem uncached idMap i e rq hb))]

lemma correlateAll_frame (cache_entries : String → Option Handler)
    (uncached : List RpcRequest) (idMap : RequestId → Option Nat) :
    ∀ (l : List JsonValue) (o : List (Option JsonRpcResponse))
      (w : List (String × JsonValue)) (i : Nat)
      (o' : List (Option JsonRpcResponse)) (w' : List (String × JsonValue)),
      correlateAll cache_entries uncached idMap (o, w) i l = some (o', w') →
      ∀ pos, (∀ rq ∈ uncached, rq.index ≠ pos) → o'[pos]? = o[pos]?
  | [], o, w, i, o', w', h, pos, H => by
    simp [correlateAll] at h
    rw [← h.1]
  | e :: es, o, w, i, o', w', h, pos, H => by
    rcases h1 : correlateOne cache_entries uncached idMap (o, w) i e
      with _ | ⟨o1, w1⟩
    · simp [correlateAll, h1] at h
    · rw [correlateAll_frame cache_entries uncached idMap es o1 w1 (i + 1) o' w'
        (by simpa [correlateAll, h1] using h) pos H,
        correlateOne_frame cache_entries uncached idMap o w i e o1 w1 pos h1 H]

/-- **C10**: a slot resolved from cache during classification is never
overwritten afterwards: whatever the upstream returns and however
correlation proceeds, the final batch response at a classification-resolved
position equals the response produced during classification. -/
theorem c10_cache_hit_slots_stable (chains : List (String × ChainState))
    (chain : String) (cs : ChainState) (requests : List JsonValue)
    (st : ClassifyState) (cb : CacheBackend) (i : Nat)
    (resp : JsonRpcResponse) (out : List (Option JsonRpcResponse))
    (hroute : routeChain chains chain = some cs)
    (hfac0 : cs.cache_factory 0 = .ok cb)
    (hclassify : classifyAll cs.cache_entries cb
      ⟨List.replicate requests.length none, [], fun _ => none⟩ 0 requests = some st)
    (hi : i < requests.length)
    (hslot : st.ordered[i]? = some (some resp))
    (hrun : rpc_call chains chain (.arr requests) = some (.okBatch out)) :
    out[i]? = some (some resp) := by
  have hdisj : ∀ rq ∈ st.uncached, rq.index ≠ i :=
    classify_disjoint cs.cache_entries cb requests st i resp hclassify hi hslot
  rw [rpc_call_arr chains chain cs requests hroute] at hrun
  unfold rpc_core at hrun
  simp only [hfac0, hclassify] at hrun
  by_cases hemp : st.uncached.isEmpty
  · simp only [hemp, if_true, return_response] at hrun
    simp at hrun
    rw [← hrun]
    exact hslot
  · simp only [hemp, Bool.false_eq_true, if_false] at hrun
    rcases hup : cs.upstream st.uncached with err | rv
    · simp only [hup, return_response] at hrun
      simp at hrun
      rw [← hrun, fillAll_frame _ _ _ _ hdisj]
      exact hslot
    · rcases rv with _ | b | nn | s | result_values | fields
      pick_goal 5
      · simp only [hup] at hrun
        rcases hf1 : cs.cache_factory 1 with err2 | cb2
        · simp only [hf1, return_response] at hrun
          simp at hrun
          rw [← hrun, fillAll_frame _ _ _ _ hdisj]
          exact hslot
        · simp only [hf1] at hrun
          rcases hcor : correlateAll cs.cache_entries st.uncached st.idMap
              (st.ordered, []) 0 result_values with _ | ⟨o2, w2⟩
          · rw [hcor] at hrun
            simp at hrun
          · rw [hcor] at hrun
            simp only [return_response] at hrun
            simp at hrun
            rw [← hrun,
              correlateAll_frame cs.cache_entries st.uncached st.idMap
                result_values st.ordered [] 0 o2 w2 hcor i hdisj]
            exact hslot
      all_goals
        simp only [hup, return_response] at hrun
      all_goals
        simp at hrun
      all_goals
        rw [← hrun, fillAll_frame _ _ _ _ hdisj]
      all_goals
        exact hslot

/-- A policy for method `m` with a fixed key, for the C10 witness. -/
def fxHitHandler : Handler := ⟨fun _ => .ok (some "K10"), fun v => .ok (true, v)⟩

/-- A backend with a pre-populated entry under key `K10`. -/
def fxHitBackend : CacheBackend :=
  ⟨fun _ k => if k = "K10" then .ok (.cached "K10" (.str "cached"))
    else .ok (.missed k)⟩

/-- A chain state where method `m` is a cache hit and method `n` is
uncacheable; upstream answers id 2. -/
def fxHitChain : ChainState :=
  ⟨fun m => if m = "m" then some fxHitHandler else none,
   fun _ => .ok fxHitBackend,
   fun _ => .ok (.arr [.obj [("id", .num 2), ("result", .str "up")]])⟩

theorem c10_cache_hit_slots_stable_witness :
    ([some (JsonRpcResponse.from_result (.num 1) (.str "cached")),
      some (JsonRpcResponse.from_result (.num 2) (.str "up"))] :
        List (Option JsonRpcResponse))[0]? =
      some (some (JsonRpcResponse.from_result (.num 1) (.str "cached"))) :=
  c10_cache_hit_slots_stable [("C10W", fxHitChain)] "C10W" fxHitChain
    [.obj [("id", .num 1), ("method", .str "m")],
      .obj [("id", .num 2), ("method", .str "n")]]
    ⟨[some (JsonRpcResponse.from_result (.num 1) (.str "cached")), none],
      [⟨1, .num 2, "n", .null, none⟩],
      fun k => if k = .num 2 then some 0 else none⟩
    fxHitBackend 0 (JsonRpcResponse.from_result (.num 1) (.str "cached"))
    [some (JsonRpcResponse.from_result (.num 1) (.str "cached")),
      some (JsonRpcResponse.from_result (.num 2) (.str "up"))]
    rfl rfl rfl (by decide) rfl rfl

end CachedEthRpc
